import Mathlib

/-!
Verification development for the ProductCareHub warranty-tracking server.

The definitions below are a shallow embedding of the in-memory store
(`src/server/storage.ts`, class `MemStorage`) and of the derived-state
computations performed by the HTTP routes (`src/server/routes.ts`) and the
analytics page (`src/client/src/pages/analytics.tsx`).

Modelling conventions, shared by all definitions:
- A JavaScript `Map<string, T>` is an association list `List (String × T)`
  in insertion order; `Map.get`, `Map.set`, `Map.delete` and key-membership
  become `mapGet`, `mapSet`, `mapDelete`, `mapHas`.
- A JavaScript `Date` is modelled two ways, matching the two ways the source
  uses dates: calendar component access (`getFullYear`/`setFullYear`) uses
  the `Ymd` triple below, and epoch-millisecond arithmetic (`getTime`)
  uses plain `Int` milliseconds.  Real-number semantics is assumed for the
  arithmetic (`Math.ceil(x / 86400000)` becomes exact integer ceiling
  division); `Math.round x = ⌊x + 1/2⌋` is computed exactly on `ℚ`.
- `randomUUID()` and `new Date()` results are passed in as explicit
  `freshId` / `now` parameters.
- Presentation-only fields that no modelled computation reads (product
  name, model, serial number, photo and receipt URLs, notes, brand data,
  provider address/district/contact fields, review titles and comments,
  support-request descriptions) are omitted from the records.
- Stable `Array.prototype.sort(comparator)` is modelled by the stable
  insertion sort `sortByLe`; a stable sort's output is unique, so any
  faithful stable sort gives the same list.
-/

/-! ## Calendar arithmetic (JavaScript `Date` component view) -/

/-- A calendar date as JavaScript exposes it: `getFullYear`, `getMonth`
(0-indexed, January = 0) and `getDate` (1-based day of month). -/
structure Ymd where
  y : Int
  m : Nat
  d : Nat
  deriving DecidableEq

/-- The Gregorian leap-year rule, as `Date` implements it. -/
def isLeapYear (y : Int) : Bool :=
  (y % 4 == 0 && !(y % 100 == 0)) || (y % 400 == 0)

/-- Number of days of month `m` (0-indexed) in year `y`. -/
def daysInMonth (y : Int) (m : Nat) : Nat :=
  if m = 1 then (if isLeapYear y then 29 else 28)
  else if m = 3 ∨ m = 5 ∨ m = 8 ∨ m = 10 then 30
  else 31

/-- `dt` is a real calendar date. -/
def ValidYmd (dt : Ymd) : Prop :=
  dt.m < 12 ∧ 1 ≤ dt.d ∧ dt.d ≤ daysInMonth dt.y dt.m

instance (dt : Ymd) : Decidable (ValidYmd dt) := by
  unfold ValidYmd; exact inferInstance

/-- `warrantyExpiration.setFullYear(warrantyExpiration.getFullYear() + 3)`
from `createProduct` (`storage.ts`).  ECMAScript `setFullYear` keeps the
month and day-of-month components and renormalises (`MakeDay`); starting
from a valid date, the only possible overflow is Feb 29 in a year whose
third successor is not a leap year, so a single month carry suffices. -/
def setFullYearAdd3 (dt : Ymd) : Ymd :=
  let y := dt.y + 3
  if dt.d ≤ daysInMonth y dt.m then ⟨y, dt.m, dt.d⟩
  else ⟨y, dt.m + 1, dt.d - daysInMonth y dt.m⟩

/-! ## Exact versions of the JavaScript numeric helpers -/

/-- Exact integer ceiling division (`/` on `Int` is floor division for a
positive divisor): models `Math.ceil(a / b)` for integer inputs. -/
def ceilDiv (a b : Int) : Int := -((-a) / b)

/-- `Math.round` on an exact rational: `⌊q + 1/2⌋`, written as a single
floor division so that it is a plain integer computation. -/
def jsRound (q : ℚ) : Int := (2 * q.num + (q.den : Int)) / (2 * (q.den : Int))

/-- `Math.round(q * 10) / 10`: rounding to one decimal place, as the
analytics page does for mean ratings. -/
def round1 (q : ℚ) : ℚ := (jsRound (q * 10) : ℚ) / 10

/-- Milliseconds per day, the divisor `1000 * 60 * 60 * 24` used by the
routes when converting a `getTime()` difference to days. -/
def msPerDay : Int := 86400000

/-! ## Stable sorting (JavaScript `Array.prototype.sort`) -/

/-- Insert `x` in front of the first element `y` with `le x y`; keeps `x`
before elements it ties with, which is what stability requires. -/
def insSorted (le : α → α → Bool) (x : α) : List α → List α
  | [] => [x]
  | y :: ys => if le x y then x :: y :: ys else y :: insSorted le x ys

/-- Stable insertion sort.  `Array.prototype.sort` is required to be
stable, and a stable sort by a total preorder has a unique output, so this
models any comparator-based JS sort. -/
def sortByLe (le : α → α → Bool) : List α → List α
  | [] => []
  | x :: xs => insSorted le x (sortByLe le xs)

/-! ## Association-list maps (JavaScript `Map<string, T>`) -/

/-- `Map.get`: the value at the first (with well-formed stores, the only)
entry with key `k`. -/
def mapGet (m : List (String × α)) (k : String) : Option α :=
  (m.find? (fun e => decide (e.1 = k))).map Prod.snd

/-- `Map.has`. -/
def mapHas (m : List (String × α)) (k : String) : Bool :=
  m.any (fun e => decide (e.1 = k))

/-- `Map.set`: replace in place when the key is present, append otherwise
(insertion order is preserved, as `Map` guarantees). -/
def mapSet (m : List (String × α)) (k : String) (v : α) : List (String × α) :=
  if mapHas m k then
    m.map (fun e => if e.1 = k then (k, v) else e)
  else m ++ [(k, v)]

/-- `Map.delete` (the entry removal part; the boolean result of
`Map.delete` is `mapHas` of the original map). -/
def mapDelete (m : List (String × α)) (k : String) : List (String × α) :=
  m.filter (fun e => !(decide (e.1 = k)))

/-! ## Entity records (`shared/schema.ts`, warranty-relevant fields) -/

/-- A stored product.  Extension fields are nullable in the schema
(`Option`); `hasExtension` defaults to false. -/
structure Product where
  id : String
  brandId : String
  purchaseDate : Ymd
  warrantyExpiration : Ymd
  hasExtension : Bool
  extendedExpirationDate : Option Ymd
  insuranceProvider : Option String
  agentName : Option String
  policyNumber : Option String
  extensionCost : Option Int
  deriving DecidableEq

/-- The validated field bundle `createProduct` receives (`InsertProduct`:
everything but `id` and the backend-computed `warrantyExpiration`). -/
structure InsertProduct where
  brandId : String
  purchaseDate : Ymd
  hasExtension : Bool := false
  extendedExpirationDate : Option Ymd := none
  insuranceProvider : Option String := none
  agentName : Option String := none
  policyNumber : Option String := none
  extensionCost : Option Int := none
  deriving DecidableEq

/-- `Partial<Product>` as accepted by `updateProduct`: any subset of the
fields; `none` means the field is absent from the update object. -/
structure ProductPatch where
  brandId : Option String := none
  purchaseDate : Option Ymd := none
  warrantyExpiration : Option Ymd := none
  hasExtension : Option Bool := none
  extendedExpirationDate : Option (Option Ymd) := none
  insuranceProvider : Option (Option String) := none
  agentName : Option (Option String) := none
  policyNumber : Option (Option String) := none
  extensionCost : Option (Option Int) := none
  deriving DecidableEq

/-- The object spread `{ ...product, ...updates }`. -/
def mergeProduct (p : Product) (u : ProductPatch) : Product :=
  { id := p.id
    brandId := u.brandId.getD p.brandId
    purchaseDate := u.purchaseDate.getD p.purchaseDate
    warrantyExpiration := u.warrantyExpiration.getD p.warrantyExpiration
    hasExtension := u.hasExtension.getD p.hasExtension
    extendedExpirationDate := u.extendedExpirationDate.getD p.extendedExpirationDate
    insuranceProvider := u.insuranceProvider.getD p.insuranceProvider
    agentName := u.agentName.getD p.agentName
    policyNumber := u.policyNumber.getD p.policyNumber
    extensionCost := u.extensionCost.getD p.extensionCost }

/-- The extension bundle `addWarrantyExtension` receives. -/
structure ExtensionInput where
  extendedExpirationDate : Ymd
  insuranceProvider : String
  agentName : String
  policyNumber : String
  extensionCost : Option Int := none
  deriving DecidableEq

/-- A stored product review; `createdAt` is epoch milliseconds. -/
structure Review where
  id : String
  productId : String
  rating : Int
  pros : List String
  cons : List String
  createdAt : Int
  deriving DecidableEq

/-- The validated bundle `createReview` receives. -/
structure InsertReview where
  productId : String
  rating : Int
  pros : Option (List String) := none
  cons : Option (List String) := none
  deriving DecidableEq

/-- A stored support request (only the fields the modelled operations
read: cascade deletion goes by `productId`, sorting by `createdAt`). -/
structure SupportRequest where
  id : String
  productId : String
  createdAt : Int
  deriving DecidableEq

/-- A stored service provider (fields read by the modelled operations:
`averageRating` is the persisted integer average, nullable with default
0 in the schema). -/
structure ServiceProvider where
  id : String
  name : String
  averageRating : Option Int
  deriving DecidableEq

/-- `Partial<ServiceProvider>` restricted to the fields of the model. -/
structure ServiceProviderPatch where
  name : Option String := none
  averageRating : Option (Option Int) := none
  deriving DecidableEq

/-- A stored service-provider review. -/
structure SPReview where
  id : String
  providerId : String
  rating : Int
  createdAt : Int
  deriving DecidableEq

/-- The validated bundle `createServiceProviderReview` receives. -/
structure InsertSPReview where
  providerId : String
  rating : Int
  deriving DecidableEq

/-- Favourite target kind: the `'product' | 'provider'` union. -/
inductive FavType where
  | product
  | provider
  deriving DecidableEq

/-- A stored favourite record. -/
structure Favorite where
  id : String
  ftype : FavType
  targetId : String
  createdAt : Int
  deriving DecidableEq

/-- The stored client profile. -/
structure ClientProfile where
  id : String
  fullName : String
  email : String
  phoneNumber : String
  taxNumber : Option String
  address : String
  city : String
  postalCode : Option String
  createdAt : Int
  updatedAt : Int
  deriving DecidableEq

/-- The validated bundle `saveClientProfile` receives. -/
structure InsertClientProfile where
  fullName : String
  email : String
  phoneNumber : String
  taxNumber : Option String := none
  address : String
  city : String
  postalCode : Option String := none
  deriving DecidableEq

/-! ## The store (`MemStorage`) -/

/-- The private entity maps of `MemStorage` (brands and notifications are
not read by any modelled computation and are omitted). -/
structure StoreState where
  products : List (String × Product)
  reviews : List (String × Review)
  supportRequests : List (String × SupportRequest)
  serviceProviders : List (String × ServiceProvider)
  spReviews : List (String × SPReview)
  favorites : List (String × Favorite)
  clientProfile : Option ClientProfile
  deriving DecidableEq

/-- The maps a fresh `MemStorage` starts with (the constructor also seeds
the brands map, which is not modelled). -/
def emptyStore : StoreState :=
  { products := [], reviews := [], supportRequests := [], serviceProviders := []
    spReviews := [], favorites := [], clientProfile := none }

/-- `createProduct`: assigns the fresh id and computes
`warrantyExpiration` as purchase date plus three years via `setFullYear`. -/
def createProduct (s : StoreState) (ins : InsertProduct) (freshId : String) :
    Product × StoreState :=
  let product : Product :=
    { id := freshId
      brandId := ins.brandId
      purchaseDate := ins.purchaseDate
      warrantyExpiration := setFullYearAdd3 ins.purchaseDate
      hasExtension := ins.hasExtension
      extendedExpirationDate := ins.extendedExpirationDate
      insuranceProvider := ins.insuranceProvider
      agentName := ins.agentName
      policyNumber := ins.policyNumber
      extensionCost := ins.extensionCost }
  (product, { s with products := mapSet s.products freshId product })

/-- `updateProduct`: plain spread merge of the stored product with the
partial update; no field is recomputed. -/
def updateProduct (s : StoreState) (id : String) (updates : ProductPatch) :
    Option Product × StoreState :=
  match mapGet s.products id with
  | none => (none, s)
  | some product =>
    let updated := mergeProduct product updates
    (some updated, { s with products := mapSet s.products id updated })

/-- `deleteProduct`: removes the reviews and support requests whose
`productId` matches (the source fetches them with the by-product getters
and deletes each by its key; with the store's unique keys that is exactly
this filter), then deletes the product itself, returning `Map.delete`'s
boolean.  Every path is total: nothing throws. -/
def deleteProduct (s : StoreState) (id : String) : Bool × StoreState :=
  ( mapHas s.products id
  , { s with
      products := mapDelete s.products id
      reviews := s.reviews.filter (fun e => !(decide (e.2.productId = id)))
      supportRequests := s.supportRequests.filter (fun e => !(decide (e.2.productId = id))) } )

/-- `addWarrantyExtension`: overwrites the extension sub-state and the
`warrantyExpiration` with the extension's date; `extensionCost || 0`. -/
def addWarrantyExtension (s : StoreState) (id : String) (ext : ExtensionInput) :
    Option Product × StoreState :=
  match mapGet s.products id with
  | none => (none, s)
  | some product =>
    let updated : Product :=
      { product with
        hasExtension := true
        extendedExpirationDate := some ext.extendedExpirationDate
        insuranceProvider := some ext.insuranceProvider
        agentName := some ext.agentName
        policyNumber := some ext.policyNumber
        extensionCost := some (ext.extensionCost.getD 0)
        warrantyExpiration := ext.extendedExpirationDate }
    (some updated, { s with products := mapSet s.products id updated })

/-- `getReviewsByProduct`: filter by product, newest first. -/
def getReviewsByProduct (s : StoreState) (productId : String) : List Review :=
  sortByLe (fun a b => decide (b.createdAt ≤ a.createdAt))
    ((s.reviews.map Prod.snd).filter (fun r => decide (r.productId = productId)))

/-- `createReview`: stores the review with the fresh id and timestamp;
`pros`/`cons` default to `[]`.  The `productId` is stored as given —
nothing checks that a product with that id exists. -/
def createReview (s : StoreState) (ins : InsertReview) (freshId : String) (now : Int) :
    Review × StoreState :=
  let review : Review :=
    { id := freshId, productId := ins.productId, rating := ins.rating
      pros := ins.pros.getD [], cons := ins.cons.getD [], createdAt := now }
  (review, { s with reviews := mapSet s.reviews freshId review })

/-- `getSupportRequestsByProduct`: filter by product, newest first. -/
def getSupportRequestsByProduct (s : StoreState) (productId : String) : List SupportRequest :=
  sortByLe (fun a b => decide (b.createdAt ≤ a.createdAt))
    ((s.supportRequests.map Prod.snd).filter (fun r => decide (r.productId = productId)))

/-- `getAllServiceProviders`: sorted by persisted rating descending
(`(b.averageRating || 0) - (a.averageRating || 0)`). -/
def getAllServiceProviders (s : StoreState) : List ServiceProvider :=
  sortByLe (fun a b => decide (b.averageRating.getD 0 ≤ a.averageRating.getD 0))
    (s.serviceProviders.map Prod.snd)

/-- `updateServiceProvider`: spread merge, as for products. -/
def updateServiceProvider (s : StoreState) (id : String) (updates : ServiceProviderPatch) :
    Option ServiceProvider × StoreState :=
  match mapGet s.serviceProviders id with
  | none => (none, s)
  | some provider =>
    let updated : ServiceProvider :=
      { id := provider.id
        name := updates.name.getD provider.name
        averageRating := updates.averageRating.getD provider.averageRating }
    (some updated, { s with serviceProviders := mapSet s.serviceProviders id updated })

/-- `getServiceProviderReviews`: filter by provider, newest first. -/
def getServiceProviderReviews (s : StoreState) (providerId : String) : List SPReview :=
  sortByLe (fun a b => decide (b.createdAt ≤ a.createdAt))
    ((s.spReviews.map Prod.snd).filter (fun r => decide (r.providerId = providerId)))

/-- `getAverageRating`: mean of the provider's review ratings, `0` for a
provider with no reviews. -/
def getAverageRating (s : StoreState) (providerId : String) : ℚ :=
  let reviews := getServiceProviderReviews s providerId
  if reviews.length = 0 then 0
  else ((reviews.map (fun r => (r.rating : ℚ))).sum) / (reviews.length : ℚ)

/-- `createServiceProviderReview`: stores the review, then recomputes the
provider's average over the full review set and persists it rounded with
`Math.round`. -/
def createServiceProviderReview (s : StoreState) (ins : InsertSPReview)
    (freshId : String) (now : Int) : SPReview × StoreState :=
  let review : SPReview :=
    { id := freshId, providerId := ins.providerId, rating := ins.rating, createdAt := now }
  let s1 : StoreState := { s with spReviews := mapSet s.spReviews freshId review }
  let avgRating := getAverageRating s1 ins.providerId
  let s2 := (updateServiceProvider s1 ins.providerId
    { averageRating := some (some (jsRound avgRating)) }).2
  (review, s2)

/-- The match used by the favourites methods:
`f.type === type && f.targetId === targetId`. -/
def favMatches (t : FavType) (targetId : String) (e : String × Favorite) : Bool :=
  decide (e.2.ftype = t) && decide (e.2.targetId = targetId)

/-- `isFavorite` on the favourites map. -/
def isFavoriteList (fs : List (String × Favorite)) (t : FavType) (targetId : String) : Bool :=
  fs.any (favMatches t targetId)

/-- `toggleFavorite` on the favourites map: if a matching record exists,
find the first one and delete it by its key, returning `false`; otherwise
store a fresh record and return `true`. -/
def toggleFavoriteList (fs : List (String × Favorite)) (t : FavType)
    (targetId : String) (freshId : String) (now : Int) :
    Bool × List (String × Favorite) :=
  if fs.any (favMatches t targetId) then
    match fs.find? (favMatches t targetId) with
    | some e => (false, mapDelete fs e.1)
    | none => (false, fs)
  else
    (true, mapSet fs freshId ⟨freshId, t, targetId, now⟩)

/-- `isFavorite` (class method). -/
def isFavorite (s : StoreState) (t : FavType) (targetId : String) : Bool :=
  isFavoriteList s.favorites t targetId

/-- `toggleFavorite` (class method). -/
def toggleFavorite (s : StoreState) (t : FavType) (targetId : String)
    (freshId : String) (now : Int) : Bool × StoreState :=
  let r := toggleFavoriteList s.favorites t targetId freshId now
  (r.1, { s with favorites := r.2 })

/-- The favourites maps `MemStorage` can actually hold: the map starts
empty and `toggleFavorite` is the only method that writes to it; the
fresh id of each insertion is a `randomUUID()`, assumed not to collide
with a key already present. -/
inductive FavoritesReachable : List (String × Favorite) → Prop where
  | init : FavoritesReachable []
  | step : ∀ (fs : List (String × Favorite)) (t : FavType)
      (targetId freshId : String) (now : Int),
      FavoritesReachable fs →
      mapHas fs freshId = false →
      FavoritesReachable (toggleFavoriteList fs t targetId freshId now).2

/-- `getClientProfile`. -/
def getClientProfile (s : StoreState) : Option ClientProfile :=
  s.clientProfile

/-- `saveClientProfile`: builds a brand-new record with a fresh id and
`createdAt = updatedAt = now` and assigns it over whatever was there. -/
def saveClientProfile (s : StoreState) (profile : InsertClientProfile)
    (freshId : String) (now : Int) : ClientProfile × StoreState :=
  let clientProf : ClientProfile :=
    { id := freshId
      fullName := profile.fullName
      email := profile.email
      phoneNumber := profile.phoneNumber
      taxNumber := profile.taxNumber
      address := profile.address
      city := profile.city
      postalCode := profile.postalCode
      createdAt := now
      updatedAt := now }
  (clientProf, { s with clientProfile := some clientProf })

/-! ## Route computations (`routes.ts`) -/

/-- `daysRemaining` as computed by the certificate and PDF-export routes:
`Math.ceil((warrantyExpiration.getTime() - Date.now().getTime()) / (1000*60*60*24))`,
on exact integers. -/
def routeDaysRemaining (expirationMs nowMs : Int) : Int :=
  ceilDiv (expirationMs - nowMs) msPerDay

/-- The routes' expiry classification: `daysRemaining < 0`. -/
def routeIsExpired (expirationMs nowMs : Int) : Bool :=
  routeDaysRemaining expirationMs nowMs < 0

/-- The user-facing days value `Math.max(daysRemaining, 0)` printed by the
certificate and PDF-export routes. -/
def routeDaysDisplay (expirationMs nowMs : Int) : Int :=
  max (routeDaysRemaining expirationMs nowMs) 0

/-- One entry of a top-rated analytics list (ratings are JS numbers,
modelled as exact `ℚ`). -/
structure RatedEntry where
  id : String
  name : String
  rating : ℚ
  reviewCount : Nat
  deriving DecidableEq

/-- `topRatedProviders` as the analytics route (`GET /api/analytics`)
builds it: every provider mapped to its persisted `averageRating || 0`
with `reviewCount: 0`, sorted descending by that rating, first five. -/
def topRatedProvidersRoute (providers : List ServiceProvider) : List RatedEntry :=
  (sortByLe (fun a b => decide (b.rating ≤ a.rating))
    (providers.map (fun p =>
      { id := p.id, name := p.name
        rating := ((p.averageRating.getD 0 : Int) : ℚ), reviewCount := 0 }))).take 5

/-- The analytics route's `topRatedProviders` over a store state (the
route reads `getAllServiceProviders()`). -/
def analyticsTopRatedProviders (s : StoreState) : List RatedEntry :=
  topRatedProvidersRoute (getAllServiceProviders s)

/-! ## The analytics page computation (`analytics.tsx`) -/

/-- One bucket of the page's `providerRatings` object (JS object keys
iterate in insertion order, so a list of buckets). -/
structure PGroup where
  pid : String
  name : String
  ratings : List Int
  deriving DecidableEq

/-- A review as the page receives it from `/api/community/reviews`: a
JSON object whose `providerId` property may be absent (`none`). -/
structure ClientReview where
  providerId : Option String
  productId : Option String
  rating : Int
  deriving DecidableEq

/-- A community review (a product `Review` joined with its product) seen
through the page's eyes: product reviews carry no `providerId` property,
so reading `r.providerId` yields `undefined`. -/
def reviewAsClientReview (r : Review) : ClientReview :=
  { providerId := none, productId := some r.productId, rating := r.rating }

/-- Push one rating into the `providerRatings` buckets, creating an
`"Unknown"` bucket for a provider id no declared bucket matches. -/
def pushProviderRating (acc : List PGroup) (pid : String) (rating : Int) : List PGroup :=
  if acc.any (fun g => decide (g.pid = pid)) then
    acc.map (fun g => if g.pid = pid then { g with ratings := g.ratings ++ [rating] } else g)
  else acc ++ [{ pid := pid, name := "Unknown", ratings := [rating] }]

/-- One `reviews.forEach` iteration of the page: reviews without a
`providerId` are skipped. -/
def providerRatingStep (acc : List PGroup) (r : ClientReview) : List PGroup :=
  match r.providerId with
  | none => acc
  | some pid => pushProviderRating acc pid r.rating

/-- `topRatedProviders` as the analytics page computes it: bucket the
received reviews by their `providerId` (skipping reviews without one),
drop zero-review buckets, take the 1-decimal mean and the count, sort
descending by mean, first five. -/
def topRatedProvidersClient (providers : List ServiceProvider)
    (reviews : List ClientReview) : List RatedEntry :=
  let init := providers.map (fun p => PGroup.mk p.id p.name [])
  let groups := reviews.foldl providerRatingStep init
  (sortByLe (fun a b => decide (b.rating ≤ a.rating))
    ((groups.filter (fun g => decide (0 < g.ratings.length))).map (fun g =>
      { id := g.pid, name := g.name
        rating := round1 (((g.ratings.map (fun x => (x : ℚ))).sum) / (g.ratings.length : ℚ))
        reviewCount := g.ratings.length }))).take 5

/-- Modelled from the claim text, not from the source: the top-rated
providers list the spec describes — `ServiceProviderReviews` grouped by
`providerId`, mean rating rounded to one decimal place together with the
review count, providers with zero reviews excluded, sorted descending by
mean rating, truncated to five. -/
def topRatedProvidersSpecClaim (providers : List ServiceProvider)
    (reviews : List SPReview) : List RatedEntry :=
  (sortByLe (fun a b => decide (b.rating ≤ a.rating))
    (providers.filterMap (fun p =>
      let rs := (reviews.filter (fun r => decide (r.providerId = p.id))).map SPReview.rating
      if rs.length = 0 then none
      else some { id := p.id, name := p.name
                  rating := round1 (((rs.map (fun x => (x : ℚ))).sum) / (rs.length : ℚ))
                  reviewCount := rs.length }))).take 5

/-! ## The warranty invariant (spec, Product entity) -/

/-- The spec's product invariant: without an extension the stored
expiration is the computed purchase-plus-three-years date; with one it is
the extension's date. -/
def warrantyInvariant (p : Product) : Prop :=
  (p.hasExtension = true → p.extendedExpirationDate = some p.warrantyExpiration) ∧
  (p.hasExtension = false → p.warrantyExpiration = setFullYearAdd3 p.purchaseDate)

instance (p : Product) : Decidable (warrantyInvariant p) := by
  unfold warrantyInvariant; exact inferInstance

/-- Number of stored favourites matching a (type, target) pair. -/
def favCount (fs : List (String × Favorite)) (t : FavType) (targetId : String) : Nat :=
  (fs.filter (favMatches t targetId)).length

/-- The keys of an association-list map, in order. -/
def mapKeys (m : List (String × α)) : List String := m.map Prod.fst

/-! ## Concrete data for witnesses and counterexamples -/

/-- A product registration dated 2023-01-15 (spec scenario 7). -/
def insJan15 : InsertProduct := { brandId := "b1", purchaseDate := ⟨2023, 0, 15⟩ }

/-- A product registration dated Feb 29, 2024 (a leap day). -/
def insFeb29 : InsertProduct := { brandId := "b1", purchaseDate := ⟨2024, 1, 29⟩ }

/-- The product `createProduct` builds from `insJan15`. -/
def prodW : Product := (createProduct emptyStore insJan15 "p1").1

/-- A store holding exactly that product. -/
def storeW : StoreState := (createProduct emptyStore insJan15 "p1").2

/-- An extension bundle moving the expiration to 2027-01-15, with no
cost given. -/
def extW : ExtensionInput :=
  { extendedExpirationDate := ⟨2027, 0, 15⟩, insuranceProvider := "SafeCo"
    agentName := "Ana", policyNumber := "PN-1" }

/-- The product `addWarrantyExtension storeW "p1" extW` stores. -/
def extProdW : Product :=
  { id := "p1", brandId := "b1", purchaseDate := ⟨2023, 0, 15⟩
    warrantyExpiration := ⟨2027, 0, 15⟩, hasExtension := true
    extendedExpirationDate := some ⟨2027, 0, 15⟩
    insuranceProvider := some "SafeCo", agentName := some "Ana"
    policyNumber := some "PN-1", extensionCost := some 0 }

/-- The partial update that changes `purchaseDate` alone. -/
def patchPurchaseOnly : ProductPatch := { purchaseDate := some ⟨2024, 5, 1⟩ }

/-- A store with one product, two reviews (one for it, one for another
id) and one support request for it. -/
def storeDel : StoreState :=
  { products := [("p1", prodW)]
    reviews :=
      [ ("r1", { id := "r1", productId := "p1", rating := 5, pros := [], cons := [], createdAt := 10 })
      , ("r2", { id := "r2", productId := "pOther", rating := 3, pros := [], cons := [], createdAt := 11 }) ]
    supportRequests := [("q1", { id := "q1", productId := "p1", createdAt := 12 })]
    serviceProviders := [], spReviews := [], favorites := [], clientProfile := none }

/-- A store whose only record is a review for the never-registered
product id "ghost", created through `createReview`. -/
def orphanStore : StoreState :=
  (createReview emptyStore { productId := "ghost", rating := 4 } "r9" 50).2

/-- A store with the provider "FixIt" and no reviews yet. -/
def fixItBase : StoreState :=
  { emptyStore with
    serviceProviders := [("prov1", { id := "prov1", name := "FixIt", averageRating := some 0 })] }

/-- `fixItBase` after reviews with ratings 5, 4, 5 and then 1. -/
def fixItS1 : StoreState := (createServiceProviderReview fixItBase ⟨"prov1", 5⟩ "s1" 1).2

/-- Second state of the FixIt scenario. -/
def fixItS2 : StoreState := (createServiceProviderReview fixItS1 ⟨"prov1", 4⟩ "s2" 2).2

/-- Third state of the FixIt scenario. -/
def fixItS3 : StoreState := (createServiceProviderReview fixItS2 ⟨"prov1", 5⟩ "s3" 3).2

/-- Fourth state of the FixIt scenario. -/
def fixItS4 : StoreState := (createServiceProviderReview fixItS3 ⟨"prov1", 1⟩ "s4" 4).2

/-- A store with one provider and no service-provider reviews at all. -/
def storeZero : StoreState :=
  { products := [], reviews := [], supportRequests := []
    serviceProviders := [("pr1", { id := "pr1", name := "Alpha", averageRating := some 0 })]
    spReviews := [], favorites := [], clientProfile := none }

/-- A client-profile bundle. -/
def insProfile : InsertClientProfile :=
  { fullName := "Maria Silva", email := "maria@example.test", phoneNumber := "912345678"
    address := "Rua A 1", city := "Lisboa" }

/-! ## Helper lemmas -/

theorem mem_insSorted (le : α → α → Bool) (x a : α) (l : List α) :
    a ∈ insSorted le x l ↔ a = x ∨ a ∈ l := by
  induction l with
  | nil => simp [insSorted]
  | cons y ys ih =>
    unfold insSorted
    by_cases h : le x y = true
    · simp [h]
    · simp only [if_neg h, List.mem_cons, ih]
      tauto

theorem mem_sortByLe (le : α → α → Bool) (a : α) (l : List α) :
    a ∈ sortByLe le l ↔ a ∈ l := by
  induction l with
  | nil => simp [sortByLe]
  | cons x xs ih =>
    unfold sortByLe
    rw [mem_insSorted]
    simp [ih]

theorem length_insSorted (le : α → α → Bool) (x : α) (l : List α) :
    (insSorted le x l).length = l.length + 1 := by
  induction l with
  | nil => rfl
  | cons y ys ih =>
    unfold insSorted
    by_cases h : le x y = true
    · simp [h]
    · simp [if_neg h, ih]

theorem length_sortByLe (le : α → α → Bool) (l : List α) :
    (sortByLe le l).length = l.length := by
  induction l with
  | nil => rfl
  | cons x xs ih =>
    unfold sortByLe
    rw [length_insSorted, ih]
    simp

theorem pairwise_insSorted (le : α → α → Bool)
    (htot : ∀ a b, le a b = true ∨ le b a = true)
    (htrans : ∀ a b c, le a b = true → le b c = true → le a c = true)
    (x : α) (l : List α) (hl : List.Pairwise (fun a b => le a b = true) l) :
    List.Pairwise (fun a b => le a b = true) (insSorted le x l) := by
  induction l with
  | nil => simp [insSorted]
  | cons y ys ih =>
    unfold insSorted
    by_cases h : le x y = true
    · rw [if_pos h]
      refine List.Pairwise.cons ?_ hl
      intro b hb
      rcases List.mem_cons.mp hb with hb | hb
      · exact hb ▸ h
      · exact htrans x y b h (List.rel_of_pairwise_cons hl hb)
    · rw [if_neg h]
      have hyx : le y x = true := by
        rcases htot x y with h1 | h1
        · exact absurd h1 h
        · exact h1
      refine List.Pairwise.cons ?_ (ih (List.Pairwise.sublist (List.sublist_cons_self y ys) hl))
      intro b hb
      rcases (mem_insSorted le x b ys).mp hb with hb | hb
      · exact hb ▸ hyx
      · exact List.rel_of_pairwise_cons hl hb

theorem pairwise_sortByLe (le : α → α → Bool)
    (htot : ∀ a b, le a b = true ∨ le b a = true)
    (htrans : ∀ a b c, le a b = true → le b c = true → le a c = true)
    (l : List α) :
    List.Pairwise (fun a b => le a b = true) (sortByLe le l) := by
  induction l with
  | nil => exact List.Pairwise.nil
  | cons x xs ih =>
    exact pairwise_insSorted le htot htrans x _ ih

theorem mapGet_map_replace (m : List (String × α)) (k : String) (v : α)
    (h : mapHas m k = true) :
    mapGet (m.map (fun e => if e.1 = k then (k, v) else e)) k = some v := by
  induction m with
  | nil => cases h
  | cons x xs ih =>
    by_cases hx : x.1 = k
    · unfold mapGet
      rw [List.map_cons, if_pos hx, List.find?_cons_of_pos _ (by simp)]
      rfl
    · have hxs : mapHas xs k = true := by
        unfold mapHas at h ⊢
        rw [List.any_cons] at h
        simpa [hx] using h
      unfold mapGet at ih ⊢
      rw [List.map_cons, if_neg hx, List.find?_cons_of_neg _ (by simp [hx])]
      exact ih hxs

theorem mapGet_append_single (m : List (String × α)) (k : String) (v : α)
    (h : mapHas m k = false) :
    mapGet (m ++ [(k, v)]) k = some v := by
  induction m with
  | nil =>
    unfold mapGet
    rw [List.nil_append, List.find?_cons_of_pos _ (by simp)]
    rfl
  | cons x xs ih =>
    unfold mapHas at h
    rw [List.any_cons] at h
    have hx : ¬ (x.1 = k) := by
      intro hk
      simp [hk] at h
    have hxs : mapHas xs k = false := by
      unfold mapHas
      simpa [hx] using h
    unfold mapGet at ih ⊢
    rw [List.cons_append, List.find?_cons_of_neg _ (by simp [hx])]
    exact ih hxs

theorem mapGet_mapSet_self (m : List (String × α)) (k : String) (v : α) :
    mapGet (mapSet m k v) k = some v := by
  unfold mapSet
  cases h : mapHas m k with
  | true =>
    simp only [if_pos rfl]
    exact mapGet_map_replace m k v h
  | false =>
    simp only [Bool.false_eq_true, if_false]
    exact mapGet_append_single m k v h

theorem mapGet_eq_none_of_not_has (m : List (String × α)) (k : String)
    (h : mapHas m k = false) : mapGet m k = none := by
  unfold mapHas at h
  unfold mapGet
  rw [List.find?_eq_none.mpr]
  · rfl
  · intro x hx
    have := List.any_eq_false.mp h x hx
    simpa using this

theorem mapHas_mapDelete_self (m : List (String × α)) (k : String) :
    mapHas (mapDelete m k) k = false := by
  unfold mapHas mapDelete
  rw [List.any_eq_false]
  intro e he
  have := (List.mem_filter.mp he).2
  simp at this
  simp [this]

theorem mapGet_mapDelete_self (m : List (String × α)) (k : String) :
    mapGet (mapDelete m k) k = none :=
  mapGet_eq_none_of_not_has _ _ (mapHas_mapDelete_self m k)

theorem mapDelete_mapDelete_self (m : List (String × α)) (k : String) :
    mapDelete (mapDelete m k) k = mapDelete m k := by
  unfold mapDelete
  rw [List.filter_filter]
  apply List.filter_congr
  intro e _
  cases h : decide (e.1 = k) <;> simp [h]

theorem mapHas_eq_true_of_mapGet (m : List (String × α)) (k : String) (v : α)
    (h : mapGet m k = some v) : mapHas m k = true := by
  unfold mapGet at h
  unfold mapHas
  cases hf : m.find? (fun e => decide (e.1 = k)) with
  | none => rw [hf] at h; cases h
  | some e =>
    have h1 := List.find?_some hf
    exact List.any_eq_true.mpr ⟨e, List.mem_of_find?_eq_some hf, h1⟩

theorem mapSet_eq_append_of_not_has (m : List (String × α)) (k : String) (v : α)
    (h : mapHas m k = false) : mapSet m k v = m ++ [(k, v)] := by
  unfold mapSet
  rw [h]
  simp

/-- General cascade-delete fact: after keeping only the entries whose
value fails `p`, filtering the values by `p` yields nothing. -/
theorem filter_map_snd_filter_not (l : List (String × α)) (p : α → Bool) :
    ((l.filter (fun e => !(p e.2))).map Prod.snd).filter p = [] := by
  induction l with
  | nil => rfl
  | cons x xs ih =>
    rw [List.filter_cons]
    by_cases h : p x.2 = true
    · simp [h, ih]
    · have : (!(p x.2)) = true := by simp [h]
      rw [if_pos this, List.map_cons, List.filter_cons]
      simp only [Bool.not_eq_true] at h
      simp [h, ih]

/-- Filtering twice by the same predicate does nothing the second time. -/
theorem filter_self_idem (l : List α) (p : α → Bool) :
    (l.filter p).filter p = l.filter p := by
  rw [List.filter_filter]
  apply List.filter_congr
  intro e _
  cases h : p e <;> simp [h]

/-- Lists of length at most one have at most one element. -/
theorem eq_of_length_le_one {l : List α} (h : l.length ≤ 1)
    {a b : α} (ha : a ∈ l) (hb : b ∈ l) : a = b := by
  match l, h with
  | [], _ => cases ha
  | [x], _ => simp_all

/-! ## Claim theorems -/

/-- C3, counterexample: the claim's biconditional "expired iff
warrantyExpiration < now" fails on the code.  With the expiration one
millisecond in the past (expiration 0, now 1), `daysRemaining` is
`ceil(-1/86400000) = 0`, so the routes classify the warranty as not
expired although `warrantyExpiration < now`. -/
theorem routeIsExpired_not_iff_lt :
    routeIsExpired 0 1 = false ∧ (0 : Int) < 1 ∧
    ¬ (routeIsExpired 0 1 = true ↔ (0 : Int) < 1) := by
  decide

/-- C3, amended: with `daysRemaining = ceil((expiration − now)/day)` and
"expired" meaning `daysRemaining < 0`, the derived status is expired if
and only if the expiration lies at least one full day (86 400 000 ms)
before `now`; the display value `max(daysRemaining, 0)` is never
negative. -/
theorem routeIsExpired_iff_day_past : ∀ expirationMs nowMs : Int,
    (routeIsExpired expirationMs nowMs = true ↔ expirationMs + msPerDay ≤ nowMs) ∧
    0 ≤ routeDaysDisplay expirationMs nowMs := by
  intro e n
  constructor
  · simp only [routeIsExpired, routeDaysRemaining, ceilDiv, msPerDay, decide_eq_true_eq]
    omega
  · exact le_max_right _ _

/-- C9 (confirmed): `saveClientProfile` unconditionally installs a
brand-new record carrying the freshly generated id, with `createdAt` and
`updatedAt` both equal to the save time and every data field copied from
the input; `getClientProfile` then returns exactly this record, and the
result is independent of whatever profile was stored before (no merge). -/
theorem saveClientProfile_replaces : ∀ (s : StoreState) (profile : InsertClientProfile)
    (freshId : String) (now : Int),
    getClientProfile (saveClientProfile s profile freshId now).2 =
      some (saveClientProfile s profile freshId now).1 ∧
    (saveClientProfile s profile freshId now).1.id = freshId ∧
    (saveClientProfile s profile freshId now).1.createdAt = now ∧
    (saveClientProfile s profile freshId now).1.updatedAt = now ∧
    (saveClientProfile s profile freshId now).1.fullName = profile.fullName ∧
    (saveClientProfile s profile freshId now).1.email = profile.email ∧
    (saveClientProfile s profile freshId now).1.phoneNumber = profile.phoneNumber ∧
    (saveClientProfile s profile freshId now).1.taxNumber = profile.taxNumber ∧
    (saveClientProfile s profile freshId now).1.address = profile.address ∧
    (saveClientProfile s profile freshId now).1.city = profile.city ∧
    (saveClientProfile s profile freshId now).1.postalCode = profile.postalCode ∧
    (∀ s2 : StoreState,
      (saveClientProfile s2 profile freshId now).1 = (saveClientProfile s profile freshId now).1 ∧
      getClientProfile (saveClientProfile s2 profile freshId now).2 =
        getClientProfile (saveClientProfile s profile freshId now).2) := by
  intro s profile freshId now
  exact ⟨rfl, rfl, rfl, rfl, rfl, rfl, rfl, rfl, rfl, rfl, rfl, fun s2 => ⟨rfl, rfl⟩⟩

/-- C2 (confirmed): for an existing product, `addWarrantyExtension`
returns the updated product, stores it back under the same id, and the
update sets `warrantyExpiration` to the extension's date, `hasExtension`
to true, the metadata fields from the bundle, and `extensionCost` to the
given cost or 0 — regardless of the product's prior state. -/
theorem addWarrantyExtension_overrides (s : StoreState) (pid : String)
    (ext : ExtensionInput) (p : Product)
    (h : mapGet s.products pid = some p) :
    ∃ u : Product,
      (addWarrantyExtension s pid ext).1 = some u ∧
      mapGet (addWarrantyExtension s pid ext).2.products pid = some u ∧
      u.warrantyExpiration = ext.extendedExpirationDate ∧
      u.hasExtension = true ∧
      u.insuranceProvider = some ext.insuranceProvider ∧
      u.agentName = some ext.agentName ∧
      u.policyNumber = some ext.policyNumber ∧
      u.extensionCost = some (ext.extensionCost.getD 0) := by
  have h1 : (addWarrantyExtension s pid ext).1 =
      some { p with
        hasExtension := true
        extendedExpirationDate := some ext.extendedExpirationDate
        insuranceProvider := some ext.insuranceProvider
        agentName := some ext.agentName
        policyNumber := some ext.policyNumber
        extensionCost := some (ext.extensionCost.getD 0)
        warrantyExpiration := ext.extendedExpirationDate } := by
    simp only [addWarrantyExtension, h]
  refine ⟨_, h1, ?_, rfl, rfl, rfl, rfl, rfl, rfl⟩
  simp only [addWarrantyExtension, h]
  exact mapGet_mapSet_self _ _ _

/-- Witness for C2: the concrete one-product store, with the extension
moving the warranty to 2027-01-15. -/
theorem addWarrantyExtension_overrides_witness :
    mapGet storeW.products "p1" = some prodW ∧
    (∃ u : Product,
      (addWarrantyExtension storeW "p1" extW).1 = some u ∧
      mapGet (addWarrantyExtension storeW "p1" extW).2.products "p1" = some u ∧
      u.warrantyExpiration = extW.extendedExpirationDate ∧
      u.hasExtension = true ∧
      u.insuranceProvider = some extW.insuranceProvider ∧
      u.agentName = some extW.agentName ∧
      u.policyNumber = some extW.policyNumber ∧
      u.extensionCost = some (extW.extensionCost.getD 0)) :=
  ⟨by decide, addWarrantyExtension_overrides storeW "p1" extW prodW (by decide)⟩

/-- Behaviour of `setFullYear(+3)` on a valid date: the result is a valid
date; the month and day are kept whenever `d` exists in the target
month, and otherwise (only possible for Feb 29 when the target year is
not a leap year) the date normalises to Mar 1. -/
theorem setFullYearAdd3_spec (dt : Ymd) (h : ValidYmd dt) :
    ValidYmd (setFullYearAdd3 dt) ∧
    (dt.d ≤ daysInMonth (dt.y + 3) dt.m →
      setFullYearAdd3 dt = Ymd.mk (dt.y + 3) dt.m dt.d) ∧
    (¬ dt.d ≤ daysInMonth (dt.y + 3) dt.m →
      dt.m = 1 ∧ dt.d = 29 ∧ setFullYearAdd3 dt = Ymd.mk (dt.y + 3) 2 1) := by
  obtain ⟨y, m, d⟩ := dt
  obtain ⟨hm, hd1, hd2⟩ := h
  simp only at hm hd1 hd2 ⊢
  have hdim : ∀ z : Int, daysInMonth z 1 = 28 ∨ daysInMonth z 1 = 29 := by
    intro z
    unfold daysInMonth
    by_cases hz : isLeapYear z = true
    · simp [hz]
    · simp [hz]
  by_cases hc : d ≤ daysInMonth (y + 3) m
  · have he : setFullYearAdd3 ⟨y, m, d⟩ = Ymd.mk (y + 3) m d := by
      simp [setFullYearAdd3, hc]
    refine ⟨?_, fun _ => he, fun hn => absurd hc hn⟩
    rw [he]
    exact ⟨hm, hd1, hc⟩
  · have hm1 : m = 1 := by
      by_contra hne
      have heq : daysInMonth (y + 3) m = daysInMonth y m := by
        unfold daysInMonth
        rw [if_neg hne, if_neg hne]
      exact hc (heq ▸ hd2)
    subst hm1
    have h28' : daysInMonth (y + 3) 1 = 28 := by
      rcases hdim (y + 3) with h | h
      · exact h
      · rcases hdim y with h2 | h2 <;> omega
    have hd29 : d = 29 := by
      rcases hdim y with h2 | h2 <;> omega
    subst hd29
    have hres : setFullYearAdd3 ⟨y, 1, 29⟩ = Ymd.mk (y + 3) 2 1 := by
      simp only [setFullYearAdd3]
      rw [h28']
      rfl
    refine ⟨?_, fun hyes => absurd hyes hc, fun _ => ⟨rfl, rfl, hres⟩⟩
    rw [hres]
    refine ⟨by norm_num, by norm_num, ?_⟩
    simp [daysInMonth]

/-- C1, counterexample: a product purchased on the leap day 2024-02-29 is
stored with `warrantyExpiration` 2027-03-01, not the claimed
"same month and day, year + 3" (2027-02-29, which does not exist). -/
theorem createProduct_feb29_normalises :
    (createProduct emptyStore insFeb29 "p1").1.warrantyExpiration = Ymd.mk 2027 2 1 ∧
    ¬ ((createProduct emptyStore insFeb29 "p1").1.warrantyExpiration =
        Ymd.mk (2024 + 3) 1 29) := by
  decide

/-- C1, amended: for a product freshly created from a valid purchase date
with no extension, the stored `warrantyExpiration` is a valid date equal
to the purchase date with the year increased by 3 and the month and day
unchanged, except that a Feb 29 purchase whose target year has only 28
February days is stored as Mar 1 of that year. -/
theorem createProduct_warrantyExpiration_amended :
    ∀ (s : StoreState) (ins : InsertProduct) (freshId : String),
    ValidYmd ins.purchaseDate → ins.hasExtension = false →
    ValidYmd (createProduct s ins freshId).1.warrantyExpiration ∧
    (ins.purchaseDate.d ≤ daysInMonth (ins.purchaseDate.y + 3) ins.purchaseDate.m →
      (createProduct s ins freshId).1.warrantyExpiration =
        Ymd.mk (ins.purchaseDate.y + 3) ins.purchaseDate.m ins.purchaseDate.d) ∧
    (¬ ins.purchaseDate.d ≤ daysInMonth (ins.purchaseDate.y + 3) ins.purchaseDate.m →
      ins.purchaseDate.m = 1 ∧ ins.purchaseDate.d = 29 ∧
      (createProduct s ins freshId).1.warrantyExpiration =
        Ymd.mk (ins.purchaseDate.y + 3) 2 1) := by
  intro s ins freshId hvalid _
  exact setFullYearAdd3_spec ins.purchaseDate hvalid

/-- Witness for C1 at the spec's concrete scenario: purchase 2023-01-15
gives expiration 2026-01-15. -/
theorem createProduct_warrantyExpiration_witness :
    ValidYmd insJan15.purchaseDate ∧
    (createProduct emptyStore insJan15 "p1").1.warrantyExpiration = Ymd.mk 2026 0 15 :=
  ⟨by decide,
   (createProduct_warrantyExpiration_amended emptyStore insJan15 "p1"
      (by decide) rfl).2.1 (by decide)⟩

theorem mapHas_eq_false_of_mapGet_none (m : List (String × α)) (k : String)
    (h : mapGet m k = none) : mapHas m k = false := by
  cases hb : mapHas m k with
  | false => rfl
  | true =>
    obtain ⟨e, he, hp⟩ := List.any_eq_true.mp hb
    have hs : (m.find? (fun e => decide (e.1 = k))).isSome = true :=
      List.find?_isSome.mpr ⟨e, he, hp⟩
    unfold mapGet at h
    cases hf : m.find? (fun e => decide (e.1 = k)) with
    | none => rw [hf] at hs; cases hs
    | some e2 => rw [hf] at h; cases h

theorem getReviewsByProduct_after_delete (s : StoreState) (pid : String) :
    getReviewsByProduct (deleteProduct s pid).2 pid = [] := by
  have h := filter_map_snd_filter_not s.reviews (fun r => decide (r.productId = pid))
  have h2 : ((deleteProduct s pid).2.reviews.map Prod.snd).filter
      (fun r => decide (r.productId = pid)) = [] := h
  unfold getReviewsByProduct
  rw [h2]
  rfl

theorem getSupportRequestsByProduct_after_delete (s : StoreState) (pid : String) :
    getSupportRequestsByProduct (deleteProduct s pid).2 pid = [] := by
  have h := filter_map_snd_filter_not s.supportRequests (fun r => decide (r.productId = pid))
  have h2 : ((deleteProduct s pid).2.supportRequests.map Prod.snd).filter
      (fun r => decide (r.productId = pid)) = [] := h
  unfold getSupportRequestsByProduct
  rw [h2]
  rfl

/-- C7 (confirmed): deleting an existing product removes it together with
every review and support request whose `productId` matches, so the
by-product getters return nothing afterwards; a second `deleteProduct` on
the same id reports not-found (`false`) and leaves the store unchanged
(every path is a total function — nothing throws). -/
theorem deleteProduct_cascades (s : StoreState) (pid : String)
    (h : mapHas s.products pid = true) :
    (deleteProduct s pid).1 = true ∧
    mapGet (deleteProduct s pid).2.products pid = none ∧
    getReviewsByProduct (deleteProduct s pid).2 pid = [] ∧
    getSupportRequestsByProduct (deleteProduct s pid).2 pid = [] ∧
    (deleteProduct (deleteProduct s pid).2 pid).1 = false ∧
    (deleteProduct (deleteProduct s pid).2 pid).2 = (deleteProduct s pid).2 := by
  refine ⟨h, mapGet_mapDelete_self _ _, getReviewsByProduct_after_delete s pid,
    getSupportRequestsByProduct_after_delete s pid, mapHas_mapDelete_self _ _, ?_⟩
  simp only [deleteProduct, StoreState.mk.injEq]
  refine ⟨mapDelete_mapDelete_self _ _, filter_self_idem _ _, filter_self_idem _ _,
    trivial, trivial, trivial, trivial⟩

/-- Witness for C7 on a concrete store with one product, a review and a
support request attached to it and one unrelated review. -/
theorem deleteProduct_cascades_witness :
    mapHas storeDel.products "p1" = true ∧
    ((deleteProduct storeDel "p1").1 = true ∧
      mapGet (deleteProduct storeDel "p1").2.products "p1" = none ∧
      getReviewsByProduct (deleteProduct storeDel "p1").2 "p1" = [] ∧
      getSupportRequestsByProduct (deleteProduct storeDel "p1").2 "p1" = [] ∧
      (deleteProduct (deleteProduct storeDel "p1").2 "p1").1 = false ∧
      (deleteProduct (deleteProduct storeDel "p1").2 "p1").2 = (deleteProduct storeDel "p1").2) :=
  ⟨by decide, deleteProduct_cascades storeDel "p1" (by decide)⟩

/-- C10 (confirmed): `deleteProduct` on an id with no stored product
still removes every review and support request carrying that `productId`
and returns `false`; such orphans are reachable because `createReview`
stores its review without checking that the product exists.  So a delete
that reports not-found need not leave the store unchanged — witnessed
concretely by `orphanStore`. -/
theorem deleteProduct_missing_still_cascades :
    (∀ (s : StoreState) (pid : String), mapGet s.products pid = none →
      (deleteProduct s pid).1 = false ∧
      getReviewsByProduct (deleteProduct s pid).2 pid = [] ∧
      getSupportRequestsByProduct (deleteProduct s pid).2 pid = []) ∧
    (∀ (s : StoreState) (ins : InsertReview) (freshId : String) (now : Int),
      mapGet (createReview s ins freshId now).2.reviews freshId =
        some (createReview s ins freshId now).1 ∧
      (createReview s ins freshId now).1.productId = ins.productId) ∧
    ((deleteProduct orphanStore "ghost").1 = false ∧
      (deleteProduct orphanStore "ghost").2 ≠ orphanStore) := by
  refine ⟨fun s pid hnone => ⟨mapHas_eq_false_of_mapGet_none _ _ hnone,
      getReviewsByProduct_after_delete s pid,
      getSupportRequestsByProduct_after_delete s pid⟩,
    fun s ins freshId now => ⟨mapGet_mapSet_self _ _ _, rfl⟩, by decide⟩

/-- Witness for C10: deleting the never-registered id "ghost" from the
store holding only an orphaned review for it. -/
theorem deleteProduct_missing_witness :
    mapGet orphanStore.products "ghost" = none ∧
    ((deleteProduct orphanStore "ghost").1 = false ∧
      getReviewsByProduct (deleteProduct orphanStore "ghost").2 "ghost" = [] ∧
      getSupportRequestsByProduct (deleteProduct orphanStore "ghost").2 "ghost" = []) :=
  ⟨by decide, deleteProduct_missing_still_cascades.1 orphanStore "ghost" (by decide)⟩

/-- C4, counterexample: the invariant is not preserved by `updateProduct`.
The freshly created product satisfies it, but updating `purchaseDate`
alone (to 2024-06-01) leaves `warrantyExpiration` at 2026-01-15, which is
no longer purchase date plus three years. -/
theorem updateProduct_breaks_invariant :
    warrantyInvariant prodW ∧
    mapGet (updateProduct storeW "p1" patchPurchaseOnly).2.products "p1" =
      some (mergeProduct prodW patchPurchaseOnly) ∧
    ¬ warrantyInvariant (mergeProduct prodW patchPurchaseOnly) := by
  decide

/-- C4, amended: `createProduct` (without an extension) and
`addWarrantyExtension` both establish the warranty invariant, but
`updateProduct` is a blind merge that recomputes nothing, so a partial
update changing `purchaseDate` alone breaks the invariant (concretely:
the stored product of `storeW` after `patchPurchaseOnly`). -/
theorem warrantyInvariant_amended :
    (∀ (s : StoreState) (ins : InsertProduct) (freshId : String),
      ins.hasExtension = false → warrantyInvariant (createProduct s ins freshId).1) ∧
    (∀ (s : StoreState) (pid : String) (ext : ExtensionInput) (u : Product),
      (addWarrantyExtension s pid ext).1 = some u → warrantyInvariant u) ∧
    (warrantyInvariant prodW ∧
      mapGet (updateProduct storeW "p1" patchPurchaseOnly).2.products "p1" =
        some (mergeProduct prodW patchPurchaseOnly) ∧
      ¬ warrantyInvariant (mergeProduct prodW patchPurchaseOnly)) := by
  refine ⟨?_, ?_, by decide⟩
  · intro s ins freshId hext
    refine ⟨fun htrue => ?_, fun _ => rfl⟩
    have hx : ins.hasExtension = true := htrue
    rw [hext] at hx
    cases hx
  · intro s pid ext u hu
    cases hg : mapGet s.products pid with
    | none =>
      simp only [addWarrantyExtension, hg] at hu
      exact Option.noConfusion hu
    | some p =>
      simp only [addWarrantyExtension, hg, Option.some.injEq] at hu
      subst hu
      refine ⟨fun _ => rfl, fun hf => ?_⟩
      have hx : (true : Bool) = false := hf
      exact absurd hx (by decide)

/-- Witness for C4: the creation and extension branches applied at the
concrete one-product store. -/
theorem warrantyInvariant_amended_witness :
    warrantyInvariant (createProduct emptyStore insJan15 "w4").1 ∧
    warrantyInvariant extProdW :=
  ⟨warrantyInvariant_amended.1 emptyStore insJan15 "w4" rfl,
   warrantyInvariant_amended.2.1 storeW "p1" extW extProdW (by decide)⟩

/-- C5 (confirmed): after each `createServiceProviderReview` for an
existing provider, the persisted `averageRating` equals `Math.round` of
the mean of all reviews then stored for that provider — recomputed over
the full review set (the freshly stored review included).  The concrete
FixIt scenario: ratings 5, 4, 5 persist 5; a fourth rating 1 persists 4. -/
theorem createServiceProviderReview_recomputes :
    (∀ (s : StoreState) (ins : InsertSPReview) (freshId : String) (now : Int)
      (p : ServiceProvider),
      mapGet s.serviceProviders ins.providerId = some p →
      ∃ p' : ServiceProvider,
        mapGet (createServiceProviderReview s ins freshId now).2.serviceProviders
          ins.providerId = some p' ∧
        p'.averageRating = some (jsRound (getAverageRating
          (createServiceProviderReview s ins freshId now).2 ins.providerId)) ∧
        mapGet (createServiceProviderReview s ins freshId now).2.spReviews freshId =
          some { id := freshId, providerId := ins.providerId
                 rating := ins.rating, createdAt := now }) ∧
    (mapGet fixItS3.serviceProviders "prov1" =
      some { id := "prov1", name := "FixIt", averageRating := some 5 } ∧
    mapGet fixItS4.serviceProviders "prov1" =
      some { id := "prov1", name := "FixIt", averageRating := some 4 }) := by
  constructor
  · intro s ins freshId now p h
    have h1 : mapGet ({ s with spReviews := (mapSet s.spReviews freshId
        ⟨freshId, ins.providerId, ins.rating, now⟩) } : StoreState).serviceProviders
        ins.providerId = some p := h
    refine ⟨{ id := p.id, name := p.name
              averageRating := (some (jsRound (getAverageRating
                ({ s with spReviews := (mapSet s.spReviews freshId
                    ⟨freshId, ins.providerId, ins.rating, now⟩) } : StoreState)
                ins.providerId))) }, ?_, ?_, ?_⟩
    · simp only [createServiceProviderReview, updateServiceProvider, h, h1]
      exact mapGet_mapSet_self _ _ _
    · simp only [createServiceProviderReview, updateServiceProvider, h, h1]
      rfl
    · simp only [createServiceProviderReview, updateServiceProvider, h, h1]
      exact mapGet_mapSet_self _ _ _
  · constructor
    · simp +decide [fixItS3, fixItS2, fixItS1, fixItBase, emptyStore,
        createServiceProviderReview, updateServiceProvider, getAverageRating,
        getServiceProviderReviews, sortByLe, insSorted, mapSet, mapGet, mapHas,
        jsRound]
      norm_num
    · simp +decide [fixItS4, fixItS3, fixItS2, fixItS1, fixItBase, emptyStore,
        createServiceProviderReview, updateServiceProvider, getAverageRating,
        getServiceProviderReviews, sortByLe, insSorted, mapSet, mapGet, mapHas,
        jsRound]
      norm_num

/-- Witness for C5: the first review (rating 5) for the FixIt provider. -/
theorem createServiceProviderReview_recomputes_witness :
    mapGet fixItBase.serviceProviders "prov1" =
      some { id := "prov1", name := "FixIt", averageRating := some 0 } ∧
    (∃ p' : ServiceProvider,
      mapGet (createServiceProviderReview fixItBase ⟨"prov1", 5⟩ "s1" 1).2.serviceProviders
        "prov1" = some p' ∧
      p'.averageRating = some (jsRound (getAverageRating
        (createServiceProviderReview fixItBase ⟨"prov1", 5⟩ "s1" 1).2 "prov1")) ∧
      mapGet (createServiceProviderReview fixItBase ⟨"prov1", 5⟩ "s1" 1).2.spReviews "s1" =
        some ⟨"s1", "prov1", 5, 1⟩) :=
  ⟨by decide, createServiceProviderReview_recomputes.1 fixItBase ⟨"prov1", 5⟩ "s1" 1
      ⟨"prov1", "FixIt", some 0⟩ (by decide)⟩

/-- C6, counterexample: the analytics route's `topRatedProviders` is not
the claimed grouped computation.  On the store with one provider and no
service-provider reviews, the claimed computation excludes the provider
and yields `[]`, while the route returns one entry (the provider with its
persisted rating and a hard-coded `reviewCount` of 0). -/
theorem analyticsTopRatedProviders_ne_spec :
    topRatedProvidersSpecClaim (getAllServiceProviders storeZero)
      (storeZero.spReviews.map Prod.snd) = [] ∧
    (analyticsTopRatedProviders storeZero).length = 1 ∧
    (analyticsTopRatedProviders storeZero).map RatedEntry.id = ["pr1"] ∧
    (analyticsTopRatedProviders storeZero).map RatedEntry.reviewCount = [0] ∧
    analyticsTopRatedProviders storeZero ≠
      topRatedProvidersSpecClaim (getAllServiceProviders storeZero)
        (storeZero.spReviews.map Prod.snd) := by
  refine ⟨by decide, by decide, by decide, by decide, by decide⟩

theorem foldl_providerRatingStep_productReviews (rs : List Review) (acc : List PGroup) :
    ((rs.map reviewAsClientReview).foldl providerRatingStep acc) = acc := by
  induction rs generalizing acc with
  | nil => rfl
  | cons x xs ih =>
    simp only [List.map_cons, List.foldl_cons]
    have hstep : providerRatingStep acc (reviewAsClientReview x) = acc := rfl
    rw [hstep]
    exact ih acc

/-- C6, amended: the route's `topRatedProviders` list has at most five
entries, is sorted descending by its rating values, uses the persisted
integer `averageRating || 0` with a hard-coded review count of 0, and
does not exclude zero-review providers (every provider appears whenever
at most five exist); the analytics page contains the claimed grouped
computation but feeds it the community product reviews, which carry no
`providerId`, so the page's computed list is always empty. -/
theorem topRatedProvidersRoute_amended :
    (∀ providers : List ServiceProvider,
      (topRatedProvidersRoute providers).length ≤ 5) ∧
    (∀ providers : List ServiceProvider,
      List.Pairwise (fun a b : RatedEntry => b.rating ≤ a.rating)
        (topRatedProvidersRoute providers)) ∧
    (∀ providers : List ServiceProvider, ∀ e ∈ topRatedProvidersRoute providers,
      e.reviewCount = 0 ∧ ∃ p ∈ providers, e.id = p.id ∧ e.name = p.name ∧
        e.rating = ((p.averageRating.getD 0 : Int) : ℚ)) ∧
    (∀ providers : List ServiceProvider, providers.length ≤ 5 →
      ∀ p ∈ providers, ∃ e ∈ topRatedProvidersRoute providers, e.id = p.id) ∧
    (∀ (providers : List ServiceProvider) (rs : List Review),
      topRatedProvidersClient providers (rs.map reviewAsClientReview) = []) := by
  refine ⟨?_, ?_, ?_, ?_, ?_⟩
  · intro providers
    exact List.length_take_le 5 _
  · intro providers
    have h := pairwise_sortByLe
      (fun a b : RatedEntry => decide (b.rating ≤ a.rating))
      (fun a b => by
        rcases le_total b.rating a.rating with h | h
        · exact Or.inl (by simpa using h)
        · exact Or.inr (by simpa using h))
      (fun a b c hab hbc => by
        simp only [decide_eq_true_eq] at hab hbc ⊢
        exact le_trans hbc hab)
      (providers.map (fun p =>
        RatedEntry.mk p.id p.name ((p.averageRating.getD 0 : Int) : ℚ) 0))
    have h2 := h.imp (fun hab => of_decide_eq_true hab)
    exact List.Pairwise.sublist (List.take_sublist 5 _) h2
  · intro providers e he
    have h1 : e ∈ sortByLe (fun a b : RatedEntry => decide (b.rating ≤ a.rating))
        (providers.map (fun p =>
          RatedEntry.mk p.id p.name ((p.averageRating.getD 0 : Int) : ℚ) 0)) :=
      List.mem_of_mem_take he
    have h2 := (mem_sortByLe _ _ _).mp h1
    obtain ⟨p, hp, rfl⟩ := List.mem_map.mp h2
    exact ⟨rfl, p, hp, rfl, rfl, rfl⟩
  · intro providers hlen p hp
    have h5 : (sortByLe (fun a b : RatedEntry => decide (b.rating ≤ a.rating))
        (providers.map (fun p =>
          RatedEntry.mk p.id p.name ((p.averageRating.getD 0 : Int) : ℚ) 0))).length ≤ 5 := by
      rw [length_sortByLe, List.length_map]
      exact hlen
    refine ⟨RatedEntry.mk p.id p.name ((p.averageRating.getD 0 : Int) : ℚ) 0, ?_, rfl⟩
    show _ ∈ List.take 5 _
    rw [List.take_of_length_le h5]
    exact (mem_sortByLe _ _ _).mpr (List.mem_map_of_mem _ hp)
  · intro providers rs
    simp only [topRatedProvidersClient]
    rw [foldl_providerRatingStep_productReviews]
    have hfilter : ((providers.map (fun p => PGroup.mk p.id p.name [])).filter
        (fun g => decide (0 < g.ratings.length))) = [] := by
      rw [List.filter_eq_nil_iff]
      intro g hg
      obtain ⟨p, _, rfl⟩ := List.mem_map.mp hg
      simp
    rw [hfilter]
    rfl

/-- Witness for C6 on the one-provider list: the length bound and the
inclusion of the zero-review provider. -/
theorem topRatedProvidersRoute_amended_witness :
    (topRatedProvidersRoute [⟨"pr1", "Alpha", some 0⟩]).length ≤ 5 ∧
    (∃ e ∈ topRatedProvidersRoute [⟨"pr1", "Alpha", some 0⟩],
      e.id = (⟨"pr1", "Alpha", some 0⟩ : ServiceProvider).id) :=
  ⟨topRatedProvidersRoute_amended.1 [⟨"pr1", "Alpha", some 0⟩],
   topRatedProvidersRoute_amended.2.2.2.1 [⟨"pr1", "Alpha", some 0⟩] (by decide)
     ⟨"pr1", "Alpha", some 0⟩ (by decide)⟩

theorem not_mem_mapKeys_of_not_has (m : List (String × α)) (k : String)
    (h : mapHas m k = false) : k ∉ mapKeys m := by
  intro hk
  obtain ⟨e, he, hek⟩ := List.mem_map.mp hk
  have h2 := List.any_eq_false.mp h e he
  simp [hek] at h2

theorem favCount_mapDelete_le (fs : List (String × Favorite)) (k : String)
    (t : FavType) (tg : String) :
    favCount (mapDelete fs k) t tg ≤ favCount fs t tg := by
  unfold favCount mapDelete
  exact List.Sublist.length_le (List.Sublist.filter _ (List.filter_sublist fs))

theorem favCount_append_single (fs : List (String × Favorite)) (t : FavType)
    (tg : String) (entry : String × Favorite) :
    favCount (fs ++ [entry]) t tg =
      favCount fs t tg + (if favMatches t tg entry then 1 else 0) := by
  unfold favCount
  rw [List.filter_append, List.length_append]
  congr 1
  cases h : favMatches t tg entry <;> simp [List.filter, h]

theorem favCount_eq_zero_of_any_false (fs : List (String × Favorite)) (t : FavType)
    (tg : String) (h : fs.any (favMatches t tg) = false) :
    favCount fs t tg = 0 := by
  unfold favCount
  rw [List.length_eq_zero, List.filter_eq_nil_iff]
  exact List.any_eq_false.mp h

theorem length_key_filter_le_one (m : List (String × α)) (k : String)
    (hnd : (mapKeys m).Nodup) :
    (m.filter (fun e => decide (e.1 = k))).length ≤ 1 := by
  induction m with
  | nil => simp
  | cons x xs ih =>
    unfold mapKeys at hnd
    rw [List.map_cons, List.nodup_cons] at hnd
    rw [List.filter_cons]
    by_cases hx : x.1 = k
    · have hzero : (xs.filter (fun e => decide (e.1 = k))).length = 0 := by
        rw [List.length_eq_zero, List.filter_eq_nil_iff]
        intro e he hek
        simp only [decide_eq_true_eq] at hek
        exact hnd.1 (hx ▸ hek ▸ List.mem_map_of_mem Prod.fst he)
      simp [hx, hzero]
    · have hdx : (decide (x.1 = k)) = false := by simp [hx]
      simp only [hdx, Bool.false_eq_true, if_false]
      exact ih hnd.2

theorem isFavoriteList_mapSet_matching (fs : List (String × Favorite)) (t : FavType)
    (tg fid : String) (now : Int) :
    isFavoriteList (mapSet fs fid ⟨fid, t, tg, now⟩) t tg = true := by
  unfold isFavoriteList
  rw [List.any_eq_true]
  refine ⟨(fid, ⟨fid, t, tg, now⟩), ?_, by simp [favMatches]⟩
  unfold mapSet
  cases hhas : mapHas fs fid with
  | true =>
    simp only [hhas, if_true]
    obtain ⟨e, he, hp⟩ := List.any_eq_true.mp hhas
    refine List.mem_map.mpr ⟨e, he, ?_⟩
    simp only [decide_eq_true_eq] at hp
    simp [hp]
  | false =>
    simp only [hhas, Bool.false_eq_true, if_false]
    exact List.mem_append.mpr (Or.inr (List.mem_cons_self _ _))

theorem isFavoriteList_after_delete (fs : List (String × Favorite)) (t : FavType)
    (tg : String) (e : String × Favorite)
    (hfind : fs.find? (favMatches t tg) = some e)
    (hc : favCount fs t tg ≤ 1) :
    isFavoriteList (mapDelete fs e.1) t tg = false := by
  cases hb : isFavoriteList (mapDelete fs e.1) t tg with
  | false => rfl
  | true =>
    exfalso
    unfold isFavoriteList mapDelete at hb
    obtain ⟨f, hf, hpf⟩ := List.any_eq_true.mp hb
    have hfs : f ∈ fs := (List.mem_filter.mp hf).1
    have hne : f.1 ≠ e.1 := by
      have hkey := (List.mem_filter.mp hf).2
      simpa using hkey
    have hee : e ∈ fs := List.mem_of_find?_eq_some hfind
    have hpe := List.find?_some hfind
    have h1 : e ∈ fs.filter (favMatches t tg) := List.mem_filter.mpr ⟨hee, hpe⟩
    have h2 : f ∈ fs.filter (favMatches t tg) := List.mem_filter.mpr ⟨hfs, hpf⟩
    exact hne (congrArg Prod.fst (eq_of_length_le_one hc h2 h1))

theorem favCount_mapSet_matching_le_one (fs : List (String × Favorite)) (t : FavType)
    (tg fid : String) (now : Int)
    (hnd : (mapKeys fs).Nodup)
    (h0 : favCount fs t tg = 0) :
    favCount (mapSet fs fid ⟨fid, t, tg, now⟩) t tg ≤ 1 := by
  have hnone : ∀ e ∈ fs, favMatches t tg e = false := by
    intro e he
    have := List.filter_eq_nil_iff.mp (List.length_eq_zero.mp h0) e he
    simpa using this
  unfold mapSet
  cases hhas : mapHas fs fid with
  | false =>
    simp only [hhas, Bool.false_eq_true, if_false]
    rw [favCount_append_single, h0]
    simp [favMatches]
  | true =>
    simp only [hhas, if_true]
    unfold favCount
    have hcongr : List.filter (favMatches t tg)
        (fs.map (fun e : String × Favorite => if e.1 = fid then (fid, ⟨fid, t, tg, now⟩) else e)) =
        (fs.filter (fun e =>
          favMatches t tg (if e.1 = fid then (fid, ⟨fid, t, tg, now⟩) else e))).map
          (fun e : String × Favorite => if e.1 = fid then (fid, ⟨fid, t, tg, now⟩) else e) :=
      List.filter_map _ _
    rw [hcongr, List.length_map]
    have hsame : fs.filter (fun e : String × Favorite =>
        favMatches t tg (if e.1 = fid then (fid, ⟨fid, t, tg, now⟩) else e)) =
        fs.filter (fun e => decide (e.1 = fid)) := by
      apply List.filter_congr
      intro e he
      by_cases hx : e.1 = fid
      · simp [hx, favMatches]
      · simp [hx, hnone e he]
    rw [hsame]
    exact length_key_filter_le_one fs fid hnd

theorem favoritesReachable_invariant (fs : List (String × Favorite))
    (h : FavoritesReachable fs) :
    (mapKeys fs).Nodup ∧ ∀ (t : FavType) (tg : String), favCount fs t tg ≤ 1 := by
  induction h with
  | init => exact ⟨List.nodup_nil, fun t tg => by simp [favCount]⟩
  | step fs t tg fid now hreach hfresh ih =>
    obtain ⟨hnd, hcnt⟩ := ih
    unfold toggleFavoriteList
    cases hany : fs.any (favMatches t tg) with
    | true =>
      cases hfind : fs.find? (favMatches t tg) with
      | none =>
        simp only [hany, if_true, hfind]
        exact ⟨hnd, hcnt⟩
      | some e =>
        simp only [hany, if_true, hfind]
        constructor
        · exact List.Nodup.sublist (List.Sublist.map _ (List.filter_sublist fs)) hnd
        · intro t2 tg2
          exact le_trans (favCount_mapDelete_le _ _ _ _) (hcnt t2 tg2)
    | false =>
      simp only [hany, Bool.false_eq_true, if_false]
      rw [mapSet_eq_append_of_not_has _ _ _ hfresh]
      constructor
      · unfold mapKeys
        rw [List.map_append]
        rw [List.nodup_append]
        refine ⟨hnd, List.nodup_singleton _, ?_⟩
        intro a ha hb
        have : a = fid := by simpa using hb
        subst this
        exact not_mem_mapKeys_of_not_has fs _ hfresh ha
      · intro t2 tg2
        rw [favCount_append_single]
        by_cases hm : favMatches t2 tg2 (fid, ⟨fid, t, tg, now⟩) = true
        · have hpair : t2 = t ∧ tg2 = tg := by
            unfold favMatches at hm
            simp only [Bool.and_eq_true, decide_eq_true_eq] at hm
            exact ⟨hm.1.symm, hm.2.symm⟩
          obtain ⟨rfl, rfl⟩ := hpair
          rw [favCount_eq_zero_of_any_false fs t2 tg2 hany]
          simp [hm]
        · have hm2 : favMatches t2 tg2 (fid, ⟨fid, t, tg, now⟩) = false :=
            Bool.eq_false_iff.mpr hm
          rw [hm2]
          simpa using hcnt t2 tg2

theorem toggleFavoriteList_fst (fs : List (String × Favorite)) (t : FavType)
    (tg fid : String) (now : Int) :
    (toggleFavoriteList fs t tg fid now).1 = !(isFavoriteList fs t tg) := by
  unfold toggleFavoriteList isFavoriteList
  cases hany : fs.any (favMatches t tg) with
  | true =>
    simp only [hany, if_true, Bool.not_true]
    cases hf : fs.find? (favMatches t tg) with
    | none => rfl
    | some e => rfl
  | false =>
    simp only [hany, Bool.false_eq_true, if_false, Bool.not_false]

theorem find?_of_any_true (fs : List (String × Favorite)) (t : FavType) (tg : String)
    (hany : fs.any (favMatches t tg) = true) :
    ∃ e, fs.find? (favMatches t tg) = some e := by
  have hs := List.find?_isSome.mpr (List.any_eq_true.mp hany)
  cases hf : fs.find? (favMatches t tg) with
  | none => rw [hf] at hs; cases hs
  | some e => exact ⟨e, rfl⟩

theorem toggleFavoriteList_spec (fs : List (String × Favorite)) (t : FavType)
    (tg fid : String) (now : Int)
    (hnd : (mapKeys fs).Nodup)
    (hcnt : ∀ (t2 : FavType) (tg2 : String), favCount fs t2 tg2 ≤ 1) :
    (toggleFavoriteList fs t tg fid now).1 = !(isFavoriteList fs t tg) ∧
    isFavoriteList (toggleFavoriteList fs t tg fid now).2 t tg =
      (toggleFavoriteList fs t tg fid now).1 ∧
    (∀ (fid2 : String) (now2 : Int),
      isFavoriteList
        (toggleFavoriteList (toggleFavoriteList fs t tg fid now).2 t tg fid2 now2).2 t tg =
        isFavoriteList fs t tg) := by
  refine ⟨toggleFavoriteList_fst fs t tg fid now, ?_, ?_⟩
  · cases hany : fs.any (favMatches t tg) with
    | false =>
      have hres : toggleFavoriteList fs t tg fid now =
          (true, mapSet fs fid ⟨fid, t, tg, now⟩) := by
        unfold toggleFavoriteList
        simp [hany]
      rw [hres]
      exact isFavoriteList_mapSet_matching fs t tg fid now
    | true =>
      obtain ⟨e, hfind⟩ := find?_of_any_true fs t tg hany
      have hres : toggleFavoriteList fs t tg fid now = (false, mapDelete fs e.1) := by
        unfold toggleFavoriteList
        simp [hany, hfind]
      rw [hres]
      exact isFavoriteList_after_delete fs t tg e hfind (hcnt t tg)
  · intro fid2 now2
    cases hany : fs.any (favMatches t tg) with
    | false =>
      have hres : toggleFavoriteList fs t tg fid now =
          (true, mapSet fs fid ⟨fid, t, tg, now⟩) := by
        unfold toggleFavoriteList
        simp [hany]
      rw [hres]
      have hmem : isFavoriteList (mapSet fs fid ⟨fid, t, tg, now⟩) t tg = true :=
        isFavoriteList_mapSet_matching fs t tg fid now
      have hany2 : (mapSet fs fid ⟨fid, t, tg, now⟩).any (favMatches t tg) = true := hmem
      have hc1 : favCount (mapSet fs fid ⟨fid, t, tg, now⟩) t tg ≤ 1 :=
        favCount_mapSet_matching_le_one fs t tg fid now hnd
          (favCount_eq_zero_of_any_false fs t tg hany)
      obtain ⟨e2, hfind2⟩ := find?_of_any_true _ t tg hany2
      have hres2 : toggleFavoriteList (mapSet fs fid ⟨fid, t, tg, now⟩) t tg fid2 now2 =
          (false, mapDelete (mapSet fs fid ⟨fid, t, tg, now⟩) e2.1) := by
        unfold toggleFavoriteList
        simp [hany2, hfind2]
      rw [hres2]
      rw [isFavoriteList_after_delete _ t tg e2 hfind2 hc1]
      unfold isFavoriteList
      rw [hany]
    | true =>
      obtain ⟨e, hfind⟩ := find?_of_any_true fs t tg hany
      have hres : toggleFavoriteList fs t tg fid now = (false, mapDelete fs e.1) := by
        unfold toggleFavoriteList
        simp [hany, hfind]
      rw [hres]
      have hafter : isFavoriteList (mapDelete fs e.1) t tg = false :=
        isFavoriteList_after_delete fs t tg e hfind (hcnt t tg)
      have hany3 : (mapDelete fs e.1).any (favMatches t tg) = false := hafter
      have hres2 : toggleFavoriteList (mapDelete fs e.1) t tg fid2 now2 =
          (true, mapSet (mapDelete fs e.1) fid2 ⟨fid2, t, tg, now2⟩) := by
        unfold toggleFavoriteList
        simp [hany3]
      rw [hres2]
      rw [isFavoriteList_mapSet_matching]
      unfold isFavoriteList
      rw [hany]

/-- C8 (confirmed): on every store the favourites map can reach (it
starts empty and only `toggleFavorite` writes to it, with fresh ids),
`toggleFavorite` returns the negation of `isFavorite` evaluated before
the call, `isFavorite` after the call equals the returned membership
boolean, and toggling the same (type, target) twice restores the original
membership. -/
theorem toggleFavorite_flips (s : StoreState) (t : FavType) (tg fid : String) (now : Int)
    (h : FavoritesReachable s.favorites) :
    (toggleFavorite s t tg fid now).1 = !(isFavorite s t tg) ∧
    isFavorite (toggleFavorite s t tg fid now).2 t tg = (toggleFavorite s t tg fid now).1 ∧
    (∀ (fid2 : String) (now2 : Int),
      isFavorite (toggleFavorite (toggleFavorite s t tg fid now).2 t tg fid2 now2).2 t tg =
        isFavorite s t tg) := by
  obtain ⟨hnd, hcnt⟩ := favoritesReachable_invariant s.favorites h
  exact toggleFavoriteList_spec s.favorites t tg fid now hnd hcnt

/-- Witness for C8 at the empty favourites map. -/
theorem toggleFavorite_flips_witness :
    FavoritesReachable emptyStore.favorites ∧
    ((toggleFavorite emptyStore FavType.product "tgt" "f1" 7).1 =
        !(isFavorite emptyStore FavType.product "tgt") ∧
      isFavorite (toggleFavorite emptyStore FavType.product "tgt" "f1" 7).2
        FavType.product "tgt" =
        (toggleFavorite emptyStore FavType.product "tgt" "f1" 7).1 ∧
      (∀ (fid2 : String) (now2 : Int),
        isFavorite (toggleFavorite (toggleFavorite emptyStore FavType.product "tgt" "f1" 7).2
          FavType.product "tgt" fid2 now2).2 FavType.product "tgt" =
          isFavorite emptyStore FavType.product "tgt")) :=
  ⟨FavoritesReachable.init,
   toggleFavorite_flips emptyStore FavType.product "tgt" "f1" 7 FavoritesReachable.init⟩
